import Mathlib

/-!
Shallow embedding of the `ServerAdapter` class from `src/index.js` of
air-firebase-v2-server-adapter, together with theorems checking the
natural-language specification against it.

Modelling conventions:
* JS strings handled by the N-gram tokenizer are modelled as lists of
  UTF-16 code units (`List Nat`), because the tokenizer's stripping step
  works on individual surrogate code units.
* Firestore is modelled as a `Store`: a map from (collection path, doc id)
  to document data, a map from collection path to autonumber counter
  documents (the `Autonumbers` collection), and a query oracle
  `queryNonEmpty` standing for the external store's query execution
  (`where(field, condition, value).limit(1)` non-emptiness), which the
  adapter only consumes at its interface boundary.
* A transaction body is modelled as a function producing the ordered list
  of writes it issues; `runTransaction` commit semantics are modelled by
  applying that list to the store on success and discarding it on error.
* Lifecycle hooks (`beforeCreate` etc.), `validate` and the user callback
  are external code that can only succeed or throw; they are modelled by
  boolean success flags (callbacks additionally carry the writes they
  would issue through the transaction handle).
* each `new Date()` call is modelled as reading one sample from a
  program-ordered clock supplied to the operation: `create` calls the
  constructor twice, so it takes two separate samples `now1`, `now2` (the
  program does not guarantee they coincide); `update` calls it once and
  takes the single sample `now`.
-/

namespace AirAdapter

/-- Error taxonomy of the adapter: one constructor per distinct `throw`
site relevant to the claims (names follow the spec's taxonomy §7). -/
inductive AdapterErr where
  | invalidArgument
  | preconditionFailed
  | notFound
  | disabled
  | overflow
  | dependencyExists (collection : String)
  | invalidQueryType
  | hookError
  | callbackError
deriving DecidableEq, Repr

/-! ## JS string model for the N-gram tokenizer (UTF-16 code units) -/

/-- Code units matched by the JS regex class `\s` (also the set removed
by `String.prototype.trim`). -/
def jsWhitespace (u : Nat) : Bool :=
  u == 0x09 || u == 0x0A || u == 0x0B || u == 0x0C || u == 0x0D ||
  u == 0x20 || u == 0xA0 || u == 0x1680 ||
  (0x2000 ≤ u && u ≤ 0x200A) ||
  u == 0x2028 || u == 0x2029 || u == 0x202F || u == 0x205F ||
  u == 0x3000 || u == 0xFEFF

/-- A UTF-16 surrogate code unit, matched by `[\uD800-\uDBFF]|[\uDC00-\uDFFF]`. -/
def isSurrogateUnit (u : Nat) : Bool :=
  0xD800 ≤ u && u ≤ 0xDFFF

/-- A code unit removed by the tokenizer's stripping regex
`/[\uD800-\uDBFF]|[\uDC00-\uDFFF]|~|\*|\[|\]|\s+/g`
(`~` = 0x7E, `*` = 0x2A, `[` = 0x5B, `]` = 0x5D). -/
def strippedUnit (u : Nat) : Bool :=
  isSurrogateUnit u || u == 0x7E || u == 0x2A || u == 0x5B || u == 0x5D ||
  jsWhitespace u

/-- `constraints.replace(/[…]|\s+/g, "")`: global replacement by the empty
string removes exactly the matched code units. -/
def stripUnits (s : List Nat) : List Nat :=
  s.filter (fun u => !strippedUnit u)

/-- `s.substring(a, b)` on a surrogate-free string: code units `a ≤ i < b`. -/
def substringUnits (s : List Nat) (a b : Nat) : List Nat :=
  (s.drop a).take (b - a)

/-- Code units of a Lean string literal (all literals we use are ASCII,
where scalar values and UTF-16 units coincide). -/
def strUnits (s : String) : List Nat :=
  s.data.map Char.toNat

/-- Insertion-ordered deduplication, as performed by `new Set([...])`:
keeps the first occurrence of each element. -/
def jsSetDedupAux [DecidableEq α] (seen : List α) : List α → List α
  | [] => []
  | x :: xs =>
    if x ∈ seen then jsSetDedupAux seen xs
    else x :: jsSetDedupAux (x :: seen) xs

/-- `Array.from(new Set(l))`. -/
def jsSetDedup [DecidableEq α] (l : List α) : List α :=
  jsSetDedupAux [] l

/-- `[...target].map((_, i) => target.substring(i, i + 1))`:
the 1-character tokens. -/
def oneGrams (t : List Nat) : List (List Nat) :=
  (List.range t.length).map (fun i => substringUnits t i (i + 1))

/-- `[...target].map((_, i) => target.substring(i, i + 2)).slice(0, -1)`:
the 2-character tokens (the final, 1-character window is sliced off). -/
def twoGrams (t : List Nat) : List (List Nat) :=
  ((List.range t.length).map (fun i => substringUnits t i (i + 2))).dropLast

/-- The Firestore predicate `where("tokenMap." + token, "==", true)`. -/
structure TokenQuery where
  field : List Nat
  op : String
  value : Bool
deriving DecidableEq, Repr

/-- Builds the predicate emitted for one token. -/
def tokenQueryOf (t : List Nat) : TokenQuery :=
  ⟨strUnits "tokenMap." ++ t, "==", true⟩

/-- `createTokenMapQueries(constraints)` (src/index.js:255-282): rejects
inputs that are empty or whitespace-only after trimming, strips surrogate
units, `~ * [ ]` and whitespace, emits the deduplicated 1- and 2-character
substrings as `tokenMap` equality predicates. -/
def createTokenMapQueries (s : List Nat) : Except AdapterErr (List TokenQuery) :=
  if s.all jsWhitespace then .error .invalidArgument
  else
    let target := stripUnits s
    let tokens := jsSetDedup (oneGrams target ++ twoGrams target)
    .ok (tokens.map tokenQueryOf)

/-! ## createQueries: declarative constraint translation -/

/-- A JS number: `NaN` or an ordinary value (finite floats of the
magnitudes involved here behave like exact rationals for the comparisons
performed).  `typeof NaN === "number"`, and every ordering comparison
involving `NaN` is false. -/
inductive JSNum where
  | nan
  | val (q : ℚ)
deriving DecidableEq, Repr

/-- JS `x <= 0` on a number: false for `NaN`. -/
def jsLeZero : JSNum → Bool
  | .nan => false
  | .val q => decide (q ≤ 0)

/-- A JS value as it can appear inside a constraint tuple.  `undefined` is
the result of reading a missing array element. -/
inductive JSVal where
  | str (s : String)
  | num (n : JSNum)
  | boolean (b : Bool)
  | null
  | undefined
deriving DecidableEq, Repr

/-- JS truthiness of a `JSVal` (`NaN`, `0`, `""`, `null`, `undefined` are
falsy). -/
def truthy : JSVal → Bool
  | .str s => if s = "" then false else true
  | .num .nan => false
  | .num (.val q) => if q = 0 then false else true
  | .boolean b => b
  | .null => false
  | .undefined => false

/-- A translated store predicate as produced by `createQueries`. -/
inductive Query where
  | qwhere (args : List JSVal)
  | qorderBy (field : JSVal) (dir : JSVal)
  | qlimit (n : JSNum)
deriving DecidableEq, Repr

/-- Translation of a single constraint tuple `[type, ...args]`
(the body of the `forEach` in src/index.js:199-241). -/
def checkConstraint (c : List JSVal) : Except AdapterErr Query :=
  let args := c.drop 1
  if c.getD 0 .undefined = .str "where" then
    .ok (.qwhere args)
  else if c.getD 0 .undefined = .str "orderBy" then
    let dir := if truthy (args.getD 1 .undefined) then args.getD 1 .undefined else .str "asc"
    if dir = .str "asc" ∨ dir = .str "desc" then
      .ok (.qorderBy (args.getD 0 .undefined) dir)
    else .error .invalidArgument
  else if c.getD 0 .undefined = .str "limit" then
    match args.getD 0 .undefined with
    | .num n => if jsLeZero n then .error .invalidArgument else .ok (.qlimit n)
    | _ => .error .invalidArgument
  else .error .invalidQueryType

/-- `createQueries(constraints)` (src/index.js:195-243): translates the
constraints in order; the first invalid constraint throws. -/
def createQueries : List (List JSVal) → Except AdapterErr (List Query)
  | [] => .ok []
  | c :: rest =>
    match checkConstraint c with
    | .error e => .error e
    | .ok q =>
      match createQueries rest with
      | .error e => .error e
      | .ok qs => .ok (q :: qs)

/-! ## Store, entity and transaction model -/

/-- Raw document data (the field-level snapshot a converter-free read
returns); its internal shape is never inspected by the operations that
copy it. -/
abbrev DocData := List (String × String)

/-- An `Autonumbers/<collectionPath>` counter document:
`{status, current, length, field}`. -/
structure Autonumber where
  status : Bool
  current : Nat
  length : Nat
  field : String
deriving DecidableEq, Repr

/-- One entry of a model's static `hasMany` list:
`{type: collection|collectionGroup, collection, field, condition}`. -/
structure HasManyItem where
  type : String
  collection : String
  field : String
  condition : String
deriving DecidableEq, Repr

/-- Static per-model configuration consumed by the adapter
(`this.constructor.*`): path resolution, flags and the `hasMany` list. -/
structure ModelStatic where
  getCollectionPath : Option String → String
  useAutonumber : Bool
  logicalDelete : Bool
  hasMany : List HasManyItem

/-- The calling FireModel instance's working state (`this`). -/
structure Instance where
  docId : Option String
  createdAt : Option Nat
  updatedAt : Option Nat
  uid : Option String
  fields : List (String × String)
deriving DecidableEq, Repr

/-- Replace (or insert) a dynamically named field, `this[k] = v`. -/
def setField (l : List (String × String)) (k v : String) : List (String × String) :=
  (k, v) :: l.filter (fun p => !(p.1 = k))

/-- Read a dynamically named field. -/
def getField (l : List (String × String)) (k : String) : Option String :=
  (l.find? (fun p => p.1 = k)).map (fun p => p.2)

/-- Converter-applied serialization of the instance for a `txn.set`
(external `converter()`, modelled at the field level). -/
def serializeInst (i : Instance) : DocData := i.fields

/-- A write staged through the transaction handle. -/
inductive Write where
  | set (path id : String) (data : DocData)
  | updateCurrent (col id : String) (current : Nat)
  | del (path id : String)
deriving DecidableEq, Repr

/-- A user callback: external code receiving the transaction handle; it
either issues `writes` and returns, or throws (`ok = false`). -/
structure Callback where
  writes : List Write
  ok : Bool

/-- The Firestore state visible to the adapter: documents, the
`Autonumbers` counters, and the external query-execution oracle
`queryNonEmpty isCollectionGroup name fieldName condition value`. -/
structure Store where
  docs : String → String → Option DocData
  counters : String → Option Autonumber
  queryNonEmpty : Bool → String → String → String → String → Bool

/-- Apply one staged write to the store (Firestore commit semantics;
`update` on a counter document merges the `current` field). -/
def applyWrite (s : Store) : Write → Store
  | .set p i d =>
    { s with docs := fun p' i' => if p' = p ∧ i' = i then some d else s.docs p' i' }
  | .del p i =>
    { s with docs := fun p' i' => if p' = p ∧ i' = i then none else s.docs p' i' }
  | .updateCurrent _ id n =>
    { s with counters := fun p =>
        if p = id then
          match s.counters p with
          | some a => some { a with current := n }
          | none => none
        else s.counters p }

/-- Commit a transaction body's outcome: apply its writes in order on
success, discard everything on error (`runTransaction` abort). -/
def applyTxn (store : Store) : Except AdapterErr (List Write) → Store
  | .ok ws => ws.foldl applyWrite store
  | .error _ => store

/-! ## setAutonumber (src/index.js:22-65) -/

/-- `String(newNumber).padStart(length, "0")`. -/
def padStart (s : String) (n : Nat) (c : Char) : String :=
  if n ≤ s.length then s else String.mk (List.replicate (n - s.length) c) ++ s

/-- `setAutonumber({transaction, prefix})`: reads
`Autonumbers/<collectionPath>`, validates status and capacity, stamps the
new zero-padded code onto the instance's designated field, and returns the
deferred counter write together with the mutated instance and the code. -/
def setAutonumber (st : ModelStatic) (store : Store) (inst : Instance)
    (pfx : Option String) : Except AdapterErr (Instance × Write × String) :=
  let collectionPath := st.getCollectionPath pfx
  match store.counters collectionPath with
  | none => .error .notFound
  | some data =>
    if data.status = false then .error .disabled
    else
      let newNumber := data.current + 1
      let maxValue := 10 ^ data.length - 1
      if maxValue < newNumber then .error .overflow
      else
        let newCode := padStart (Nat.repr newNumber) data.length '0'
        .ok ({ inst with fields := setField inst.fields data.field newCode },
             Write.updateCurrent "Autonumbers" collectionPath newNumber,
             newCode)

/-- One serial allocation round: run `setAutonumber` and, on success,
commit its deferred counter write (a failed attempt changes nothing). -/
def allocStep (st : ModelStatic) (pfx : Option String)
    (s : Store × Instance) : Store × Instance :=
  match setAutonumber st s.1 s.2 pfx with
  | .ok (inst', w, _) => (applyWrite s.1 w, inst')
  | .error _ => s

/-- State after `k` serial allocation rounds. -/
def allocIter (st : ModelStatic) (pfx : Option String)
    (s : Store × Instance) : Nat → Store × Instance
  | 0 => s
  | k + 1 => allocStep st pfx (allocIter st pfx s k)

/-- Result of the `k`-th allocation attempt (`k ≥ 1`), performed against
the state left by the first `k - 1` attempts. -/
def attemptRes (st : ModelStatic) (pfx : Option String)
    (s : Store × Instance) (k : Nat) : Except AdapterErr (Instance × Write × String) :=
  setAutonumber st (allocIter st pfx s (k - 1)).1 (allocIter st pfx s (k - 1)).2 pfx

/-! ## create (src/index.js:91-139) -/

/-- `docId ? colRef.doc(docId) : colRef.doc()`: a falsy (absent or empty)
caller id yields a store-generated id. -/
def resolveDocId (docId : Option String) (genId : String) : String :=
  match docId with
  | some s => if s = "" then genId else s
  | none => genId

/-- `create({docId, useAutonumber, transaction, callBack, prefix})`,
internal-transaction variant: returns the instance as mutated so far
together with the transaction outcome (the ordered list of staged writes
and the created document id).  `genId` is the id the store would
generate; `now1` and `now2` are the instants returned by the two
`new Date()` calls, in program order (`createdAt` first, `updatedAt`
second); the hook flags model the external `beforeCreate()` and
`validate()`. -/
def create (st : ModelStatic) (store : Store) (inst : Instance)
    (docId : Option String) (useAuto : Bool) (callBack : Option Callback)
    (pfx : Option String) (genId : String) (now1 now2 : Nat)
    (beforeCreateOk validateOk : Bool) :
    Instance × Except AdapterErr (List Write × String) :=
  if beforeCreateOk = false then (inst, .error .hookError)
  else if validateOk = false then (inst, .error .hookError)
  else
    let autonumberRes : Except AdapterErr (Instance × Option Write) :=
      if st.useAutonumber && useAuto then
        match setAutonumber st store inst pfx with
        | .error e => .error e
        | .ok (inst', w, _) => .ok (inst', some w)
      else .ok (inst, none)
    match autonumberRes with
    | .error e => (inst, .error e)
    | .ok (inst₁, counterW) =>
      let collectionPath := st.getCollectionPath pfx
      let newId := resolveDocId docId genId
      let inst₂ := { inst₁ with
        docId := some newId, createdAt := some now1, updatedAt := some now2,
        uid := some "cloud functions" }
      let baseWrites :=
        Write.set collectionPath newId (serializeInst inst₂) ::
          (match counterW with | some w => [w] | none => [])
      match callBack with
      | none => (inst₂, .ok (baseWrites, newId))
      | some cb =>
        if cb.ok then (inst₂, .ok (baseWrites ++ cb.writes, newId))
        else (inst₂, .error .callbackError)

/-- Commit semantics for `create`'s internal transaction. -/
def createApply (store : Store) : Except AdapterErr (List Write × String) → Store
  | .ok (ws, _) => ws.foldl applyWrite store
  | .error _ => store

/-! ## hasChild (src/index.js:396-429) and delete (src/index.js:451-506) -/

/-- `/` handling of `replace(/^\/|\/$/g, "")`: drop one leading
slash. -/
def dropLeadSlash : List Char → List Char
  | '/' :: rest => rest
  | s => s

/-- `collectionPath.replace(/^\/|\/$/g, "")`: one leading and one
trailing slash removed. -/
def stripSlash (s : String) : String :=
  String.mk (List.reverse (dropLeadSlash (List.reverse (dropLeadSlash s.data))))

/-- The query target for one `hasMany` item: prefixed path for
`type === "collection"` with a truthy prefix, the bare collection name
otherwise (collection groups query by name). -/
def relPath (item : HasManyItem) (pfx : Option String) : String :=
  if item.type = "collection" then
    match pfx with
    | some p => if p = "" then item.collection else stripSlash (p ++ "/" ++ item.collection)
    | none => item.collection
  else item.collection

/-- The loop body of `hasChild`: first `hasMany` item whose
`where(item.field, item.condition, docId).limit(1)` query is non-empty. -/
def hasChildMatch (st : ModelStatic) (store : Store) (pfx : Option String)
    (d : String) : Option HasManyItem :=
  st.hasMany.find? (fun item =>
    store.queryNonEmpty (!(item.type = "collection")) (relPath item pfx)
      item.field item.condition d)

/-- `hasChild({transaction, prefix})`: requires `docId`; returns the first
matching dependent relation (`false` in JS becomes `none`). -/
def hasChild (st : ModelStatic) (store : Store) (inst : Instance)
    (pfx : Option String) : Except AdapterErr (Option HasManyItem) :=
  match inst.docId with
  | none => .error .preconditionFailed
  | some d =>
    if d = "" then .error .preconditionFailed
    else .ok (hasChildMatch st store pfx d)

/-- `delete({transaction, callBack, prefix})`, internal-transaction
variant: dependency check, optional archive copy under
`<collectionPath>_archive`, primary delete, then callback.  Returns the
ordered list of staged writes or the error that aborted the
transaction. -/
def deleteOp (st : ModelStatic) (store : Store) (inst : Instance)
    (callBack : Option Callback) (pfx : Option String)
    (beforeDeleteOk : Bool) : Except AdapterErr (List Write) :=
  match inst.docId with
  | none => .error .preconditionFailed
  | some d =>
    if d = "" then .error .preconditionFailed
    else if beforeDeleteOk = false then .error .hookError
    else
      let collectionPath := st.getCollectionPath pfx
      match hasChildMatch st store pfx d with
      | some item => .error (.dependencyExists item.collection)
      | none =>
        let archWrites : Except AdapterErr (List Write) :=
          if st.logicalDelete then
            match store.docs collectionPath d with
            | none => .error .notFound
            | some snap => .ok [Write.set (collectionPath ++ "_archive") d snap]
          else .ok []
        match archWrites with
        | .error e => .error e
        | .ok ws₁ =>
          let ws := ws₁ ++ [Write.del collectionPath d]
          match callBack with
          | none => .ok ws
          | some cb => if cb.ok then .ok (ws ++ cb.writes) else .error .callbackError

/-! ## restore (src/index.js:508-538) -/

/-- `restore({docId, prefix})`: requires the archive record; atomically
(one batch) deletes it and re-creates the primary record from its
snapshot. -/
def restore (st : ModelStatic) (store : Store) (docId : Option String)
    (pfx : Option String) : Except AdapterErr (List Write) :=
  match docId with
  | none => .error .invalidArgument
  | some d =>
    if d = "" then .error .invalidArgument
    else
      let collectionPath := st.getCollectionPath pfx
      let archivePath := collectionPath ++ "_archive"
      match store.docs archivePath d with
      | none => .error .notFound
      | some snap => .ok [Write.del archivePath d, Write.set collectionPath d snap]

/-! ## update (src/index.js:355-394) -/

/-- A transaction access performed by `update` (it issues no reads). -/
inductive TxnAccess where
  | tget (path id : String)
  | tput (w : Write)
deriving DecidableEq, Repr

/-- `update({transaction, callBack, prefix})`: callback type check, then
the `docId` precondition, then hooks, then the overwrite inside the
transaction.  Returns the instance as mutated so far, the ordered trace
of store accesses issued, and the outcome. -/
def update (st : ModelStatic) (inst : Instance) (callBack : Option Callback)
    (pfx : Option String) (now : Nat) (beforeUpdateOk validateOk : Bool) :
    Instance × List TxnAccess × Except AdapterErr String :=
  match inst.docId with
  | none => (inst, [], .error .preconditionFailed)
  | some d =>
    if d = "" then (inst, [], .error .preconditionFailed)
    else if beforeUpdateOk = false then (inst, [], .error .hookError)
    else if validateOk = false then (inst, [], .error .hookError)
    else
      let collectionPath := st.getCollectionPath pfx
      let inst₂ := { inst with updatedAt := some now, uid := some "cloud functions" }
      let base := [TxnAccess.tput (Write.set collectionPath d (serializeInst inst₂))]
      match callBack with
      | none => (inst₂, base, .ok d)
      | some cb =>
        if cb.ok then (inst₂, base ++ cb.writes.map TxnAccess.tput, .ok d)
        else (inst₂, base, .error .callbackError)

/-! ## Spec-side notions and concrete fixtures -/

/-- `t` is a contiguous substring of `s` (the spec's notion of an
N-gram source). -/
def IsSubstr (t s : List Nat) : Prop :=
  ∃ l r, s = l ++ t ++ r

/-- The tag of a constraint tuple (`constraint[0]`). -/
def constraintTag (c : List JSVal) : JSVal := c.getD 0 .undefined

/-- The `i`-th argument of a constraint tuple (`args[i]` after
destructuring `[type, ...args]`). -/
def constraintArg (c : List JSVal) (i : Nat) : JSVal := (c.drop 1).getD i .undefined

/-- The rejection test `createQueries` actually performs on a `limit`
argument: `typeof args[0] !== "number" || args[0] <= 0`.  `NaN` is a
number and `NaN <= 0` is false, so `NaN` is NOT rejected; integrality is
never checked. -/
def limitRejected : JSVal → Bool
  | .num n => jsLeZero n
  | _ => true

/-- Fixture: a model whose collection resolves to `"Items"`, with
autonumbering enabled and no dependent relations. -/
def staticAuto : ModelStatic :=
  ⟨fun _ => "Items", true, false, []⟩

/-- Fixture: a model resolving to `"Items"` without autonumbering. -/
def staticPlain : ModelStatic :=
  ⟨fun _ => "Items", false, false, []⟩

/-- Fixture: a logical-delete model resolving to `"Items"`. -/
def staticArchive : ModelStatic :=
  ⟨fun _ => "Items", false, true, []⟩

/-- Fixture: a model with one dependent `hasMany` relation. -/
def staticRel : ModelStatic :=
  ⟨fun _ => "Items", false, false, [⟨"collection", "Orders", "itemId", "=="⟩]⟩

/-- Fixture: counter document `Autonumbers/Items` with
`current = 5`, `length = 3`. -/
def counterFx : Autonumber := ⟨true, 5, 3, "code"⟩

/-- Fixture: a store holding only the counter document. -/
def storeCounter : Store :=
  ⟨fun _ _ => none,
   fun p => if p = "Items" then some counterFx else none,
   fun _ _ _ _ _ => false⟩

/-- Fixture: a store holding one primary document `Items/I1`. -/
def storeDoc : Store :=
  ⟨fun p i => if p = "Items" ∧ i = "I1" then some [("name", "widget")] else none,
   fun _ => none,
   fun _ _ _ _ _ => false⟩

/-- Fixture: a store whose query oracle reports a dependent document in
every relation. -/
def storeDep : Store :=
  ⟨fun _ _ => none, fun _ => none, fun _ _ _ _ _ => true⟩

/-- Fixture: a detached instance. -/
def instEmpty : Instance := ⟨none, none, none, none, []⟩

/-- Fixture: an instance that has fetched doc `I1`. -/
def instI1 : Instance := ⟨some "I1", none, none, none, []⟩

/-- Fixture: a callback that always throws. -/
def cbThrow : Callback := ⟨[], false⟩

end AirAdapter

deriving instance DecidableEq for Except

namespace AirAdapter

/-! ## Theorems -/

/-- C6: on an instance whose `docId` is not set, `update()` fails with
`PreconditionFailed`, returning the instance unmodified and with an empty
store-access trace: the failure is raised before any store read or
write. -/
theorem C6_update_requires_docId (st : ModelStatic) (inst : Instance)
    (callBack : Option Callback) (pfx : Option String) (now : Nat)
    (beforeUpdateOk validateOk : Bool) (h : inst.docId = none) :
    update st inst callBack pfx now beforeUpdateOk validateOk
      = (inst, [], .error .preconditionFailed) := by
  unfold update
  rw [h]

/-- Witness for C6 at a concrete detached instance. -/
theorem C6_update_requires_docId_witness :
    instEmpty.docId = none ∧
    update staticPlain instEmpty none none 0 true true
      = (instEmpty, [], .error .preconditionFailed) :=
  ⟨rfl, C6_update_requires_docId staticPlain instEmpty none none 0 true true rfl⟩

/-- C10: an input that is not whitespace-only (so it survives the
emptiness check) but every code unit of which is removed by the stripping
step yields `ok []`: no failure, an empty predicate list. -/
theorem C10_tokenizer_fully_stripped (s : List Nat)
    (h₁ : s.all jsWhitespace = false) (h₂ : stripUnits s = []) :
    createTokenMapQueries s = .ok [] := by
  unfold createTokenMapQueries
  rw [h₁]
  simp [h₂, oneGrams, twoGrams, jsSetDedup, jsSetDedupAux]

/-- Witness for C10: the single emoji `🎉` (surrogate pair
`0xD83C 0xDF89`). -/
theorem C10_tokenizer_fully_stripped_witness :
    [55356, 57225].all jsWhitespace = false ∧
    stripUnits [55356, 57225] = [] ∧
    createTokenMapQueries [55356, 57225] = .ok [] :=
  ⟨by decide, by decide, C10_tokenizer_fully_stripped _ (by decide) (by decide)⟩

/-- Helper: a prefix of constraints that all translate successfully does
not mask a later failure. -/
theorem createQueries_append_ok (pre rest : List (List JSVal))
    (hpre : ∀ c' ∈ pre, (checkConstraint c').isOk = true)
    (e : AdapterErr) (h : createQueries rest = .error e) :
    createQueries (pre ++ rest) = .error e := by
  induction pre with
  | nil => simpa using h
  | cons c' pre' ih =>
    have hc' : (checkConstraint c').isOk = true := hpre c' (by simp)
    have hrest : createQueries (pre' ++ rest) = .error e :=
      ih (fun c hc => hpre c (by simp [hc]))
    show createQueries (c' :: (pre' ++ rest)) = .error e
    unfold createQueries
    cases hcc : checkConstraint c' with
    | error e' => rw [hcc] at hc'; simp [Except.isOk, Except.toBool] at hc'
    | ok q => rw [hrest]

/-- C8 (amended): in any constraint list whose earlier constraints are
valid, an `orderBy` whose direction argument is present, *truthy*, and
not `"asc"`/`"desc"` fails with `InvalidArgument`; a `limit` whose
argument fails the code's test — it is not a number, or it is a number
`<= 0` (so `NaN` and positive non-integers are accepted, integrality is
NOT checked) — fails with `InvalidArgument`; a tag other than
`where`/`orderBy`/`limit` fails with `InvalidQueryType`. -/
theorem C8_createQueries_validation (pre : List (List JSVal)) (c : List JSVal)
    (post : List (List JSVal))
    (hpre : ∀ c' ∈ pre, (checkConstraint c').isOk = true) :
    ((constraintTag c = .str "orderBy" ∧ truthy (constraintArg c 1) = true ∧
      constraintArg c 1 ≠ .str "asc" ∧ constraintArg c 1 ≠ .str "desc") →
      createQueries (pre ++ c :: post) = .error .invalidArgument) ∧
    ((constraintTag c = .str "limit" ∧ limitRejected (constraintArg c 0) = true) →
      createQueries (pre ++ c :: post) = .error .invalidArgument) ∧
    ((constraintTag c ≠ .str "where" ∧ constraintTag c ≠ .str "orderBy" ∧
      constraintTag c ≠ .str "limit") →
      createQueries (pre ++ c :: post) = .error .invalidQueryType) := by
  refine ⟨fun hcase => ?_, fun hcase => ?_, fun hcase => ?_⟩
  · obtain ⟨htag, htru, hasc, hdesc⟩ := hcase
    apply createQueries_append_ok pre _ hpre
    have hcc : checkConstraint c = .error .invalidArgument := by
      unfold checkConstraint
      rw [show c.getD 0 JSVal.undefined = JSVal.str "orderBy" from htag]
      simp only [show (JSVal.str "orderBy" = JSVal.str "where") = False by simp,
        if_false, if_true, reduceIte]
      rw [show ((c.drop 1).getD 1 JSVal.undefined) = constraintArg c 1 from rfl]
      rw [if_pos htru]
      rw [if_neg (by rintro (h | h) <;> [exact hasc h; exact hdesc h])]
    unfold createQueries
    rw [hcc]
  · obtain ⟨htag, hnum⟩ := hcase
    apply createQueries_append_ok pre _ hpre
    have hcc : checkConstraint c = .error .invalidArgument := by
      unfold checkConstraint
      rw [show c.getD 0 JSVal.undefined = JSVal.str "limit" from htag]
      simp only [show (JSVal.str "limit" = JSVal.str "where") = False by simp,
        show (JSVal.str "limit" = JSVal.str "orderBy") = False by simp,
        if_false, reduceIte]
      rw [show ((c.drop 1).getD 0 JSVal.undefined) = constraintArg c 0 from rfl]
      cases harg : constraintArg c 0 with
      | num n =>
        rw [harg] at hnum
        simp only [limitRejected] at hnum
        simp [hnum]
      | str s => rfl
      | boolean b => rfl
      | null => rfl
      | undefined => rfl
    unfold createQueries
    rw [hcc]
  · obtain ⟨hw, ho, hl⟩ := hcase
    apply createQueries_append_ok pre _ hpre
    have hw' : c.getD 0 JSVal.undefined ≠ JSVal.str "where" := hw
    have ho' : c.getD 0 JSVal.undefined ≠ JSVal.str "orderBy" := ho
    have hl' : c.getD 0 JSVal.undefined ≠ JSVal.str "limit" := hl
    have hcc : checkConstraint c = .error .invalidQueryType := by
      unfold checkConstraint
      rw [if_neg hw', if_neg ho', if_neg hl']
    unfold createQueries
    rw [hcc]

/-- Witness for the amended C8: `limit("x")` fails with
`InvalidArgument`. -/
theorem C8_createQueries_validation_witness :
    createQueries [[JSVal.str "limit", JSVal.str "x"]] = .error .invalidArgument :=
  (C8_createQueries_validation [] [JSVal.str "limit", JSVal.str "x"] []
    (by simp)).2.1 (by constructor <;> decide)

/-- Counterexample to C8 as stated: `limit(5/2)` has a positive
non-integer argument (denominator 2) yet translates successfully;
`limit(NaN)` has a number argument that is not a positive integer yet
translates successfully, because `NaN <= 0` is false; and
`orderBy("age", "")` has a present direction that is neither `"asc"` nor
`"desc"` yet translates successfully (falsy directions default to
`"asc"`). -/
theorem C8_createQueries_validation_counterexample :
    ((mkRat 5 2).den ≠ 1 ∧ 0 < mkRat 5 2) ∧
    createQueries [[JSVal.str "limit", JSVal.num (.val (mkRat 5 2))]]
      = .ok [Query.qlimit (.val (mkRat 5 2))] ∧
    createQueries [[JSVal.str "limit", JSVal.num .nan]]
      = .ok [Query.qlimit .nan] ∧
    createQueries [[JSVal.str "orderBy", JSVal.str "age", JSVal.str ""]]
      = .ok [Query.qorderBy (JSVal.str "age") (JSVal.str "asc")] :=
  ⟨⟨by decide, by decide⟩, by decide, by decide, by decide⟩

end AirAdapter

namespace AirAdapter

/-- Helper: the only write `setAutonumber` ever defers is an update of
`current` on the `Autonumbers/<collectionPath>` counter document. -/
theorem setAutonumber_ok_shape (st : ModelStatic) (store : Store) (inst : Instance)
    (pfx : Option String) (i : Instance) (w : Write) (cd : String)
    (h : setAutonumber st store inst pfx = .ok (i, w, cd)) :
    ∃ n, w = Write.updateCurrent "Autonumbers" (st.getCollectionPath pfx) n := by
  simp only [setAutonumber] at h
  split at h
  · simp at h
  · split at h
    · simp at h
    · split at h
      · simp at h
      · simp only [Except.ok.injEq, Prod.mk.injEq] at h
        exact ⟨_, h.2.1.symm⟩

/-- C5 (amended): a successful `create()` without autonumbering produces
the caller-provided id when a non-empty one was given, the
store-generated id otherwise; `createdAt` is stamped from the first
`new Date()` sample and `updatedAt` from the second, so the two stamps
are equal exactly when the two consecutive clock samples coincide — the
program itself does not guarantee that. -/
theorem C5_create_docId_and_stamps (st : ModelStatic) (store : Store) (inst : Instance)
    (docId : Option String) (useAuto : Bool) (callBack : Option Callback)
    (pfx : Option String) (genId : String) (now1 now2 : Nat)
    (beforeCreateOk validateOk : Bool)
    (hauto : (st.useAutonumber && useAuto) = false)
    (inst' : Instance) (ws : List Write) (rid : String)
    (hrun : create st store inst docId useAuto callBack pfx genId now1 now2
      beforeCreateOk validateOk = (inst', .ok (ws, rid))) :
    rid = resolveDocId docId genId ∧
    inst'.docId = some rid ∧
    (∀ s, docId = some s → s ≠ "" → rid = s) ∧
    (docId = none → rid = genId) ∧
    inst'.createdAt = some now1 ∧
    inst'.updatedAt = some now2 ∧
    (now1 = now2 → inst'.createdAt = inst'.updatedAt) := by
  cases beforeCreateOk with
  | false => unfold create at hrun; simp at hrun
  | true =>
    cases validateOk with
    | false => unfold create at hrun; simp at hrun
    | true =>
      unfold create at hrun
      rw [hauto] at hrun
      cases callBack with
      | none =>
        simp at hrun
        obtain ⟨hi, hw, hr⟩ := hrun
        subst hi
        subst hr
        refine ⟨rfl, rfl, ?_, ?_, rfl, rfl, ?_⟩
        · intro s hs hne
          subst hs
          simp [resolveDocId, hne]
        · intro hnone
          subst hnone
          rfl
        · intro heq
          rw [heq]
      | some cb =>
        cases hcb : cb.ok with
        | false => simp [hcb] at hrun
        | true =>
          simp [hcb] at hrun
          obtain ⟨hi, hw, hr⟩ := hrun
          subst hi
          subst hr
          refine ⟨rfl, rfl, ?_, ?_, rfl, rfl, ?_⟩
          · intro s hs hne
            subst hs
            simp [resolveDocId, hne]
          · intro hnone
            subst hnone
            rfl
          · intro heq
            rw [heq]

/-- Witness for the amended C5 at concrete inputs (caller-provided id
`"D42"`, both clock samples returning instant 7). -/
theorem C5_create_docId_and_stamps_witness :
    "D42" = resolveDocId (some "D42") "G1" ∧
    (⟨some "D42", some 7, some 7, some "cloud functions", []⟩ : Instance).docId = some "D42" ∧
    (∀ s, some "D42" = some s → s ≠ "" → "D42" = s) ∧
    (some "D42" = (none : Option String) → "D42" = "G1") ∧
    (⟨some "D42", some 7, some 7, some "cloud functions", []⟩ : Instance).createdAt = some 7 ∧
    (⟨some "D42", some 7, some 7, some "cloud functions", []⟩ : Instance).updatedAt = some 7 ∧
    (7 = 7 →
      (⟨some "D42", some 7, some 7, some "cloud functions", []⟩ : Instance).createdAt
        = (⟨some "D42", some 7, some 7, some "cloud functions", []⟩ : Instance).updatedAt) :=
  C5_create_docId_and_stamps staticPlain storeDoc instEmpty (some "D42") true none
    none "G1" 7 7 true true (by decide)
    ⟨some "D42", some 7, some 7, some "cloud functions", []⟩
    [Write.set "Items" "D42" []] "D42" (by decide)

/-- Counterexample to C5 as stated: when the two consecutive `new Date()`
calls return distinct instants (0, then 1), `create()` without
autonumbering succeeds, yet the stamped `createdAt` differs from the
stamped `updatedAt`. -/
theorem C5_create_docId_and_stamps_counterexample :
    create staticPlain storeDoc instEmpty (some "D42") true none none "G1" 0 1 true true
      = (⟨some "D42", some 0, some 1, some "cloud functions", []⟩,
         .ok ([Write.set "Items" "D42" []], "D42")) ∧
    ¬((⟨some "D42", some 0, some 1, some "cloud functions", []⟩ : Instance).createdAt
        = (⟨some "D42", some 0, some 1, some "cloud functions", []⟩ : Instance).updatedAt) :=
  ⟨by decide, by decide⟩

end AirAdapter

namespace AirAdapter

/-- C4: in a `create()` transaction that uses autonumbering, the staged
write list always starts with the primary entity `set` followed
immediately by the deferred counter update — the entity write strictly
precedes the counter write and the counter write never precedes it; and
any failure (raised at or before the entity write or later) aborts the
transaction, so the counter increment is never applied to the store. -/
theorem C4_entity_write_precedes_counter (st : ModelStatic) (store : Store)
    (inst : Instance) (docId : Option String) (useAuto : Bool)
    (callBack : Option Callback) (pfx : Option String) (genId : String)
    (now1 now2 : Nat) (beforeCreateOk validateOk : Bool)
    (hauto : st.useAutonumber = true) (huse : useAuto = true) :
    (∀ inst' ws rid,
      create st store inst docId useAuto callBack pfx genId now1 now2
        beforeCreateOk validateOk = (inst', .ok (ws, rid)) →
      ∃ d n cbWs,
        ws = Write.set (st.getCollectionPath pfx) rid d ::
             Write.updateCurrent "Autonumbers" (st.getCollectionPath pfx) n :: cbWs) ∧
    (∀ inst' e,
      create st store inst docId useAuto callBack pfx genId now1 now2
        beforeCreateOk validateOk = (inst', .error e) →
      createApply store (create st store inst docId useAuto callBack pfx genId now1 now2
        beforeCreateOk validateOk).2 = store) := by
  constructor
  · intro inst' ws rid hrun
    cases beforeCreateOk with
    | false => unfold create at hrun; simp at hrun
    | true =>
      cases validateOk with
      | false => unfold create at hrun; simp at hrun
      | true =>
        unfold create at hrun
        rw [hauto, huse] at hrun
        simp only [Bool.and_self, if_true] at hrun
        cases han : setAutonumber st store inst pfx with
        | error e => rw [han] at hrun; simp at hrun
        | ok triple =>
          obtain ⟨i₁, w, cd⟩ := triple
          obtain ⟨n, hn⟩ := setAutonumber_ok_shape st store inst pfx i₁ w cd han
          rw [han] at hrun
          cases callBack with
          | none =>
            simp at hrun
            obtain ⟨hi, hw, hr⟩ := hrun
            subst hr
            rw [← hw, hn]
            exact ⟨_, n, [], rfl⟩
          | some cb =>
            cases hcb : cb.ok with
            | false => simp [hcb] at hrun
            | true =>
              simp [hcb] at hrun
              obtain ⟨hi, hw, hr⟩ := hrun
              subst hr
              rw [← hw, hn]
              exact ⟨_, n, cb.writes, rfl⟩
  · intro inst' e hrun
    rw [hrun]
    rfl

/-- Witness for C4 at concrete inputs: the entity write is first, the
counter write second, and nothing follows. -/
theorem C4_entity_write_precedes_counter_witness :
    ∃ d n cbWs,
      [Write.set "Items" "D1" [("code", "006")],
       Write.updateCurrent "Autonumbers" "Items" 6] =
        Write.set (staticAuto.getCollectionPath none) "D1" d ::
        Write.updateCurrent "Autonumbers" (staticAuto.getCollectionPath none) n :: cbWs :=
  (C4_entity_write_precedes_counter staticAuto storeCounter instEmpty (some "D1")
      true none none "G1" 3 4 true true rfl rfl).1
    ⟨some "D1", some 3, some 4, some "cloud functions", [("code", "006")]⟩
    [Write.set "Items" "D1" [("code", "006")],
     Write.updateCurrent "Autonumbers" "Items" 6]
    "D1" (by decide)

/-- Helper: reading back the dynamically named field just set. -/
theorem getField_setField (l : List (String × String)) (k v : String) :
    getField (setField l k v) k = some v := by
  simp [getField, setField, List.find?]

/-- C9: `create()` mutates the calling instance in place; when the
callback throws after the writes were staged, the transaction aborts (the
store is left unchanged, the counter increment included), but the
instance keeps its stamped `docId`, `createdAt`, `updatedAt`, `uid` and
autonumber code field. -/
theorem C9_create_instance_mutation_survives_abort (st : ModelStatic) (store : Store)
    (inst : Instance) (docId : Option String) (cb : Callback)
    (pfx : Option String) (genId : String) (now1 now2 : Nat)
    (c L : Nat) (f : String)
    (hauto : st.useAutonumber = true)
    (hc : store.counters (st.getCollectionPath pfx) = some ⟨true, c, L, f⟩)
    (hcap : c + 1 ≤ 10 ^ L - 1)
    (hcb : cb.ok = false) :
    ∃ inst',
      create st store inst docId true (some cb) pfx genId now1 now2 true true
        = (inst', .error .callbackError) ∧
      inst'.docId = some (resolveDocId docId genId) ∧
      inst'.createdAt = some now1 ∧
      inst'.updatedAt = some now2 ∧
      inst'.uid = some "cloud functions" ∧
      getField inst'.fields f = some (padStart (Nat.repr (c + 1)) L '0') ∧
      createApply store (create st store inst docId true (some cb) pfx genId now1 now2
        true true).2 = store := by
  have han : setAutonumber st store inst pfx =
      .ok ({ inst with fields := setField inst.fields f (padStart (Nat.repr (c + 1)) L '0') },
           Write.updateCurrent "Autonumbers" (st.getCollectionPath pfx) (c + 1),
           padStart (Nat.repr (c + 1)) L '0') := by
    simp only [setAutonumber, hc]
    rw [if_neg (by simp)]
    rw [if_neg (by omega)]
  have hrun : create st store inst docId true (some cb) pfx genId now1 now2 true true
      = ({ inst with
            fields := setField inst.fields f (padStart (Nat.repr (c + 1)) L '0'),
            docId := some (resolveDocId docId genId),
            createdAt := some now1, updatedAt := some now2,
            uid := some "cloud functions" },
         .error .callbackError) := by
    unfold create
    rw [hauto]
    simp only [Bool.and_self, if_true]
    rw [han]
    simp [hcb]
  refine ⟨_, hrun, ?_, ?_, ?_, ?_, ?_, ?_⟩
  · rfl
  · rfl
  · rfl
  · rfl
  · exact getField_setField _ _ _
  · rw [hrun]
    rfl

/-- Witness for C9 at concrete inputs: the aborting create leaves the
store untouched but the instance stamped. -/
theorem C9_create_instance_mutation_survives_abort_witness :
    ∃ inst',
      create staticAuto storeCounter instEmpty (some "D1") true (some cbThrow)
        none "G1" 3 4 true true = (inst', .error .callbackError) ∧
      inst'.docId = some (resolveDocId (some "D1") "G1") ∧
      inst'.createdAt = some 3 ∧
      inst'.updatedAt = some 4 ∧
      inst'.uid = some "cloud functions" ∧
      getField inst'.fields "code" = some (padStart (Nat.repr (5 + 1)) 3 '0') ∧
      createApply storeCounter (create staticAuto storeCounter instEmpty (some "D1")
        true (some cbThrow) none "G1" 3 4 true true).2 = storeCounter :=
  C9_create_instance_mutation_survives_abort staticAuto storeCounter instEmpty
    (some "D1") cbThrow none "G1" 3 4 5 3 "code" rfl (by decide) (by decide) rfl

end AirAdapter

namespace AirAdapter

/-- C2: when at least one declared `hasMany` relation holds a dependent
record (its `field == docId` query is non-empty), `delete()` fails with
`DependencyExists` naming the first matching relation's collection, and
the transaction stages no write at all: no archive set, no primary
delete, no callback write, and the store is left unchanged. -/
theorem C2_delete_blocked_by_dependency (st : ModelStatic) (store : Store)
    (inst : Instance) (callBack : Option Callback) (pfx : Option String)
    (d : String) (hdoc : inst.docId = some d) (hne : d ≠ "")
    (hdep : ∃ item ∈ st.hasMany,
      store.queryNonEmpty (!(item.type = "collection")) (relPath item pfx)
        item.field item.condition d = true) :
    ∃ item₀ ∈ st.hasMany,
      store.queryNonEmpty (!(item₀.type = "collection")) (relPath item₀ pfx)
        item₀.field item₀.condition d = true ∧
      deleteOp st store inst callBack pfx true
        = .error (.dependencyExists item₀.collection) ∧
      applyTxn store (deleteOp st store inst callBack pfx true) = store := by
  have hfind : (st.hasMany.find? (fun item =>
      store.queryNonEmpty (!(item.type = "collection")) (relPath item pfx)
        item.field item.condition d)).isSome = true := by
    rw [List.find?_isSome]
    obtain ⟨item, hmem, hq⟩ := hdep
    exact ⟨item, hmem, by simpa using hq⟩
  obtain ⟨item₀, hfind₀⟩ := Option.isSome_iff_exists.mp hfind
  have hmem₀ : item₀ ∈ st.hasMany := List.mem_of_find?_eq_some hfind₀
  have hq₀ : store.queryNonEmpty (!(item₀.type = "collection")) (relPath item₀ pfx)
      item₀.field item₀.condition d = true := by
    simpa using List.find?_some hfind₀
  have hrun : deleteOp st store inst callBack pfx true
      = .error (.dependencyExists item₀.collection) := by
    unfold deleteOp
    rw [hdoc]
    dsimp only
    rw [if_neg hne]
    simp only [Bool.true_eq_false, if_false, reduceIte]
    rw [show hasChildMatch st store pfx d = some item₀ from hfind₀]
  exact ⟨item₀, hmem₀, hq₀, hrun, by rw [hrun]; rfl⟩

/-- Witness for C2: a dependent `Orders` record blocks deletion of
`Items/I1` and the store is untouched. -/
theorem C2_delete_blocked_by_dependency_witness :
    ∃ item₀ ∈ staticRel.hasMany,
      storeDep.queryNonEmpty (!(item₀.type = "collection")) (relPath item₀ none)
        item₀.field item₀.condition "I1" = true ∧
      deleteOp staticRel storeDep instI1 none none true
        = .error (.dependencyExists item₀.collection) ∧
      applyTxn storeDep (deleteOp staticRel storeDep instI1 none none true) = storeDep :=
  C2_delete_blocked_by_dependency staticRel storeDep instI1 none none "I1"
    rfl (by decide) ⟨⟨"collection", "Orders", "itemId", "=="⟩, by decide, rfl⟩

/-- Helper: appending `"_archive"` changes a collection path. -/
theorem archive_path_ne (s : String) : ¬(s ++ "_archive" = s) := by
  intro h
  have hl := congrArg String.length h
  rw [String.length_append] at hl
  have h8 : ("_archive" : String).length = 8 := rfl
  omega

end AirAdapter

namespace AirAdapter

/-- C3: on a logical-delete model, `delete()` stages exactly the archive
copy followed by the primary delete; afterwards the primary record is
gone and the archive holds the snapshot; `restore()` then stages exactly
the archive delete and the primary re-create; afterwards the primary
record equals the pre-delete document and the archive record is gone.
After each completed operation the primary and archive records are never
both present. -/
theorem C3_logical_delete_round_trip (st : ModelStatic) (store : Store)
    (inst : Instance) (pfx : Option String) (d : String) (snap : DocData)
    (hld : st.logicalDelete = true)
    (hdoc : inst.docId = some d) (hne : d ≠ "")
    (hnodep : hasChildMatch st store pfx d = none)
    (hprim : store.docs (st.getCollectionPath pfx) d = some snap) :
    ∃ s₁ s₂,
      deleteOp st store inst none pfx true
        = .ok [Write.set (st.getCollectionPath pfx ++ "_archive") d snap,
               Write.del (st.getCollectionPath pfx) d] ∧
      s₁ = applyTxn store (deleteOp st store inst none pfx true) ∧
      s₁.docs (st.getCollectionPath pfx) d = none ∧
      s₁.docs (st.getCollectionPath pfx ++ "_archive") d = some snap ∧
      ¬((s₁.docs (st.getCollectionPath pfx) d).isSome = true ∧
        (s₁.docs (st.getCollectionPath pfx ++ "_archive") d).isSome = true) ∧
      restore st s₁ (some d) pfx
        = .ok [Write.del (st.getCollectionPath pfx ++ "_archive") d,
               Write.set (st.getCollectionPath pfx) d snap] ∧
      s₂ = applyTxn s₁ (restore st s₁ (some d) pfx) ∧
      s₂.docs (st.getCollectionPath pfx) d = some snap ∧
      s₂.docs (st.getCollectionPath pfx ++ "_archive") d = none ∧
      ¬((s₂.docs (st.getCollectionPath pfx) d).isSome = true ∧
        (s₂.docs (st.getCollectionPath pfx ++ "_archive") d).isSome = true) := by
  have harch := archive_path_ne (st.getCollectionPath pfx)
  have hr₁ : deleteOp st store inst none pfx true
      = .ok [Write.set (st.getCollectionPath pfx ++ "_archive") d snap,
             Write.del (st.getCollectionPath pfx) d] := by
    unfold deleteOp
    rw [hdoc]
    dsimp only
    rw [if_neg hne]
    simp [hnodep, hld, hprim]
  have h₁prim : (applyTxn store (deleteOp st store inst none pfx true)).docs
      (st.getCollectionPath pfx) d = none := by
    rw [hr₁]
    simp [applyTxn, applyWrite]
  have h₁arch : (applyTxn store (deleteOp st store inst none pfx true)).docs
      (st.getCollectionPath pfx ++ "_archive") d = some snap := by
    rw [hr₁]
    simp [applyTxn, applyWrite, harch]
  have hrest : restore st (applyTxn store (deleteOp st store inst none pfx true))
      (some d) pfx
      = .ok [Write.del (st.getCollectionPath pfx ++ "_archive") d,
             Write.set (st.getCollectionPath pfx) d snap] := by
    unfold restore
    dsimp only
    rw [if_neg hne]
    rw [h₁arch]
  have h₂prim : (applyTxn (applyTxn store (deleteOp st store inst none pfx true))
      (restore st (applyTxn store (deleteOp st store inst none pfx true)) (some d) pfx)).docs
      (st.getCollectionPath pfx) d = some snap := by
    rw [hrest]
    simp [applyTxn, applyWrite, harch]
  have h₂arch : (applyTxn (applyTxn store (deleteOp st store inst none pfx true))
      (restore st (applyTxn store (deleteOp st store inst none pfx true)) (some d) pfx)).docs
      (st.getCollectionPath pfx ++ "_archive") d = none := by
    rw [hrest]
    simp [applyTxn, applyWrite, harch]
  refine ⟨_, _, hr₁, rfl, h₁prim, h₁arch, ?_, hrest, rfl, h₂prim, h₂arch, ?_⟩
  · rw [h₁prim]
    simp
  · rw [h₂arch]
    simp

/-- Witness for C3 at a concrete store: `Items/I1` round-trips through
`Items_archive/I1`. -/
theorem C3_logical_delete_round_trip_witness :
    ∃ s₁ s₂,
      deleteOp staticArchive storeDoc instI1 none none true
        = .ok [Write.set (staticArchive.getCollectionPath none ++ "_archive") "I1" [("name", "widget")],
               Write.del (staticArchive.getCollectionPath none) "I1"] ∧
      s₁ = applyTxn storeDoc (deleteOp staticArchive storeDoc instI1 none none true) ∧
      s₁.docs (staticArchive.getCollectionPath none) "I1" = none ∧
      s₁.docs (staticArchive.getCollectionPath none ++ "_archive") "I1" = some [("name", "widget")] ∧
      ¬((s₁.docs (staticArchive.getCollectionPath none) "I1").isSome = true ∧
        (s₁.docs (staticArchive.getCollectionPath none ++ "_archive") "I1").isSome = true) ∧
      restore staticArchive s₁ (some "I1") none
        = .ok [Write.del (staticArchive.getCollectionPath none ++ "_archive") "I1",
               Write.set (staticArchive.getCollectionPath none) "I1" [("name", "widget")]] ∧
      s₂ = applyTxn s₁ (restore staticArchive s₁ (some "I1") none) ∧
      s₂.docs (staticArchive.getCollectionPath none) "I1" = some [("name", "widget")] ∧
      s₂.docs (staticArchive.getCollectionPath none ++ "_archive") "I1" = none ∧
      ¬((s₂.docs (staticArchive.getCollectionPath none) "I1").isSome = true ∧
        (s₂.docs (staticArchive.getCollectionPath none ++ "_archive") "I1").isSome = true) :=
  C3_logical_delete_round_trip staticArchive storeDoc instI1 none "I1"
    [("name", "widget")] rfl rfl (by decide) rfl (by decide)

end AirAdapter

namespace AirAdapter

/-- Helper: under serial allocation the counter document keeps its
status, length and field, and its `current` value after `k` rounds is
`min (c + k) (10^L - 1)`: successful rounds add exactly 1, failed rounds
change nothing. -/
theorem allocIter_counters (st : ModelStatic) (pfx : Option String)
    (store : Store) (inst : Instance) (c L : Nat) (f : String)
    (hc : store.counters (st.getCollectionPath pfx) = some ⟨true, c, L, f⟩)
    (hcm : c ≤ 10 ^ L - 1) :
    ∀ k, (allocIter st pfx (store, inst) k).1.counters (st.getCollectionPath pfx)
        = some ⟨true, min (c + k) (10 ^ L - 1), L, f⟩ := by
  intro k
  induction k with
  | zero =>
    simp [allocIter, hc, Nat.min_eq_left hcm]
  | succ k ih =>
    by_cases hover : 10 ^ L - 1 < min (c + k) (10 ^ L - 1) + 1
    · have hmin : min (c + (k + 1)) (10 ^ L - 1) = min (c + k) (10 ^ L - 1) := by
        omega
      have hstep : allocIter st pfx (store, inst) (k + 1)
          = allocIter st pfx (store, inst) k := by
        show allocStep st pfx (allocIter st pfx (store, inst) k)
          = allocIter st pfx (store, inst) k
        unfold allocStep
        simp only [setAutonumber, ih]
        rw [if_neg (by simp)]
        rw [if_pos hover]
      rw [hstep, ih, hmin]
    · have hmin : min (c + (k + 1)) (10 ^ L - 1) = min (c + k) (10 ^ L - 1) + 1 := by
        omega
      have hstep : allocIter st pfx (store, inst) (k + 1)
          = allocStep st pfx (allocIter st pfx (store, inst) k) := rfl
      rw [hstep]
      unfold allocStep
      simp only [setAutonumber, ih]
      rw [if_neg (by simp)]
      rw [if_neg hover]
      simp [applyWrite, ih, hmin]

/-- C1: starting from an enabled counter with `current = c` and
`length = L`, attempts `1..N` (with `c + N ≤ 10^L - 1`) each succeed,
returning the decimal code of `c + k` zero-padded to width `L` and
deferring the counter write `current = c + k`, so `current` grows by
exactly 1 per allocation; and the `(10^L - c + 1)`-th attempt fails with
`Overflow`. -/
theorem C1_autonumber_sequential (st : ModelStatic) (store : Store)
    (inst : Instance) (pfx : Option String) (c L N : Nat) (f : String)
    (hc : store.counters (st.getCollectionPath pfx) = some ⟨true, c, L, f⟩)
    (hN : c + N ≤ 10 ^ L - 1) :
    (∀ k, 1 ≤ k → k ≤ N →
      (∃ i', attemptRes st pfx (store, inst) k
          = .ok (i', Write.updateCurrent "Autonumbers" (st.getCollectionPath pfx) (c + k),
                 padStart (Nat.repr (c + k)) L '0')) ∧
      ((allocIter st pfx (store, inst) k).1.counters
          (st.getCollectionPath pfx)).map Autonumber.current = some (c + k)) ∧
    attemptRes st pfx (store, inst) (10 ^ L - c + 1) = .error .overflow := by
  have hP : 1 ≤ 10 ^ L := Nat.one_le_pow L 10 (by norm_num)
  have hcm : c ≤ 10 ^ L - 1 := by omega
  have hiter := allocIter_counters st pfx store inst c L f hc hcm
  constructor
  · intro k hk1 hkN
    constructor
    · have hprev := hiter (k - 1)
      have hmin : min (c + (k - 1)) (10 ^ L - 1) = c + (k - 1) := by omega
      unfold attemptRes
      simp only [setAutonumber, hprev, hmin]
      rw [if_neg (by simp)]
      rw [if_neg (by omega)]
      have hsucc : c + (k - 1) + 1 = c + k := by omega
      rw [hsucc]
      exact ⟨_, rfl⟩
    · rw [hiter k]
      have hmin2 : min (c + k) (10 ^ L - 1) = c + k := by omega
      rw [hmin2]
      rfl
  · have hprev := hiter (10 ^ L - c + 1 - 1)
    have hidx : 10 ^ L - c + 1 - 1 = 10 ^ L - c := by omega
    rw [hidx] at hprev
    have hmin : min (c + (10 ^ L - c)) (10 ^ L - 1) = 10 ^ L - 1 := by omega
    rw [hmin] at hprev
    unfold attemptRes
    rw [hidx]
    simp only [setAutonumber, hprev]
    rw [if_neg (by simp)]
    rw [if_pos (by omega)]

/-- Witness for C1 at the concrete counter `{current 5, length 3}`: the
first attempt allocates code `"006"` and increments `current` to 6, and
the `(10^3 - 5 + 1)`-th attempt overflows. -/
theorem C1_autonumber_sequential_witness :
    (∃ i', attemptRes staticAuto none (storeCounter, instEmpty) 1
        = .ok (i', Write.updateCurrent "Autonumbers" (staticAuto.getCollectionPath none) (5 + 1),
               padStart (Nat.repr (5 + 1)) 3 '0')) ∧
    ((allocIter staticAuto none (storeCounter, instEmpty) 1).1.counters
        (staticAuto.getCollectionPath none)).map Autonumber.current = some (5 + 1) ∧
    attemptRes staticAuto none (storeCounter, instEmpty) (10 ^ 3 - 5 + 1)
      = .error .overflow ∧
    padStart (Nat.repr (5 + 1)) 3 '0' = "006" := by
  have h := C1_autonumber_sequential staticAuto storeCounter instEmpty none 5 3 2 "code"
    (by decide) (by decide)
  exact ⟨(h.1 1 (by decide) (by decide)).1, (h.1 1 (by decide) (by decide)).2, h.2, by decide⟩

end AirAdapter

namespace AirAdapter

/-- Membership in the insertion-ordered dedup: an element appears iff it
was in the input and not already seen. -/
theorem mem_jsSetDedupAux [DecidableEq α] (seen l : List α) (x : α) :
    x ∈ jsSetDedupAux seen l ↔ x ∈ l ∧ x ∉ seen := by
  induction l generalizing seen with
  | nil => simp [jsSetDedupAux]
  | cons y ys ih =>
    by_cases hy : y ∈ seen <;> by_cases hxy : x = y <;>
      simp [jsSetDedupAux, hy, ih, hxy]
    subst hxy
    intro hmem
    rw [ih] at hmem
    exact hmem.2 hy

/-- The insertion-ordered dedup has no duplicates. -/
theorem nodup_jsSetDedupAux [DecidableEq α] (seen l : List α) :
    (jsSetDedupAux seen l).Nodup := by
  induction l generalizing seen with
  | nil => simp [jsSetDedupAux]
  | cons y ys ih =>
    by_cases hy : y ∈ seen
    · simp [jsSetDedupAux, hy, ih]
    · simp only [jsSetDedupAux, hy, if_false, reduceIte]
      refine List.nodup_cons.mpr ⟨?_, ih _⟩
      intro hmem
      rw [mem_jsSetDedupAux] at hmem
      exact hmem.2 (List.mem_cons_self y seen)

/-- A 1-character window of `substring`. -/
theorem substring_one (s : List Nat) (i : Nat) (h : i < s.length) :
    substringUnits s i (i + 1) = [s.getD i 0] := by
  unfold substringUnits
  have h1 : i + 1 - i = 1 := by omega
  rw [h1, List.drop_eq_getElem_cons h, List.getD_eq_getElem s 0 h]
  rfl

/-- A 2-character window of `substring`. -/
theorem substring_two (s : List Nat) (i : Nat) (h : i + 1 < s.length) :
    substringUnits s i (i + 2) = [s.getD i 0, s.getD (i + 1) 0] := by
  unfold substringUnits
  have h0 : i < s.length := by omega
  have h2 : i + 2 - i = 2 := by omega
  rw [h2, List.drop_eq_getElem_cons h0, List.drop_eq_getElem_cons h,
    List.getD_eq_getElem s 0 h0, List.getD_eq_getElem s 0 h]
  rfl

/-- `dropLast` on a range. -/
theorem range_dropLast (n : Nat) : (List.range n).dropLast = List.range (n - 1) := by
  cases n with
  | zero => rfl
  | succ m =>
    rw [List.range_succ, List.dropLast_concat]
    simp

/-- The sliced 2-gram list equals the map over the first
`length - 1` window starts. -/
theorem twoGrams_eq (t : List Nat) :
    twoGrams t = (List.range (t.length - 1)).map (fun i => substringUnits t i (i + 2)) := by
  unfold twoGrams
  rw [← List.map_dropLast, range_dropLast]

/-- Every window of `substring` is a contiguous substring. -/
theorem IsSubstr_window (s : List Nat) (i k : Nat) :
    IsSubstr (substringUnits s i (i + k)) s := by
  refine ⟨s.take i, s.drop (i + k), ?_⟩
  unfold substringUnits
  have hk : i + k - i = k := by omega
  rw [hk]
  have hdd : (s.drop i).drop k = s.drop (i + k) := by
    rw [List.drop_drop]
  calc s = s.take i ++ s.drop i := (List.take_append_drop i s).symm
    _ = s.take i ++ ((s.drop i).take k ++ s.drop (i + k)) := by
        conv_rhs => rw [← hdd, List.take_append_drop]
    _ = s.take i ++ (s.drop i).take k ++ s.drop (i + k) := by
        rw [List.append_assoc]

/-- A singleton is a contiguous substring iff its element occurs. -/
theorem singleton_IsSubstr (u : Nat) (s : List Nat) :
    IsSubstr [u] s ↔ u ∈ s := by
  constructor
  · rintro ⟨l, r, rfl⟩
    simp
  · intro hm
    induction s with
    | nil => simp at hm
    | cons x xs ih =>
      rcases List.mem_cons.mp hm with rfl | hm'
      · exact ⟨[], xs, rfl⟩
      · obtain ⟨l, r, hlr⟩ := ih hm'
        exact ⟨x :: l, r, by simp [hlr]⟩

/-- A 2-element list is a contiguous substring iff it occurs as a pair of
adjacent elements. -/
theorem pair_IsSubstr (a b : Nat) (s : List Nat) :
    IsSubstr [a, b] s ↔
      ∃ i, i + 1 < s.length ∧ s.getD i 0 = a ∧ s.getD (i + 1) 0 = b := by
  induction s with
  | nil =>
    constructor
    · rintro ⟨l, r, h⟩
      have hlen := congrArg List.length h
      simp at hlen
      omega
    · rintro ⟨i, hi, _⟩
      simp at hi
  | cons x xs ih =>
    constructor
    · rintro ⟨l, r, h⟩
      cases l with
      | nil =>
        simp only [List.nil_append, List.cons_append, List.cons.injEq] at h
        obtain ⟨rfl, hxs⟩ := h
        refine ⟨0, ?_, rfl, ?_⟩
        · rw [hxs]
          simp
        · rw [hxs]
          rfl
      | cons y l' =>
        simp only [List.cons_append, List.cons.injEq] at h
        obtain ⟨rfl, hxs⟩ := h
        obtain ⟨i, hi, ha, hb⟩ := ih.mp ⟨l', r, by simpa using hxs⟩
        refine ⟨i + 1, ?_, ?_, ?_⟩
        · simp only [List.length_cons]
          omega
        · simpa using ha
        · simpa using hb
    · rintro ⟨i, hi, ha, hb⟩
      cases i with
      | zero =>
        cases xs with
        | nil => simp at hi
        | cons y ys =>
          have hx : x = a := by simpa using ha
          have hy : y = b := by simpa using hb
          exact ⟨[], ys, by simp [hx, hy]⟩
      | succ j =>
        have hi' : j + 1 < xs.length := by
          simp only [List.length_cons] at hi
          omega
        have ha' : xs.getD j 0 = a := by simpa using ha
        have hb' : xs.getD (j + 1) 0 = b := by simpa using hb
        obtain ⟨l, r, hlr⟩ := ih.mpr ⟨j, hi', ha', hb'⟩
        exact ⟨x :: l, r, by simp [hlr]⟩

/-- 1-gram membership: exactly the length-1 contiguous substrings. -/
theorem mem_oneGrams_iff (t u : List Nat) :
    u ∈ oneGrams t ↔ u.length = 1 ∧ IsSubstr u t := by
  unfold oneGrams
  simp only [List.mem_map, List.mem_range]
  constructor
  · rintro ⟨i, hi, rfl⟩
    rw [substring_one t i hi]
    refine ⟨rfl, ?_⟩
    rw [singleton_IsSubstr]
    rw [List.getD_eq_getElem t 0 hi]
    exact List.getElem_mem hi
  · rintro ⟨hlen, hsub⟩
    obtain ⟨c, rfl⟩ : ∃ c, u = [c] := by
      cases u with
      | nil => simp at hlen
      | cons c cs =>
        cases cs with
        | nil => exact ⟨c, rfl⟩
        | cons d ds => simp at hlen
    rw [singleton_IsSubstr] at hsub
    obtain ⟨i, hi, hgi⟩ := List.mem_iff_getElem.mp hsub
    exact ⟨i, hi, by rw [substring_one t i hi, List.getD_eq_getElem t 0 hi, hgi]⟩

/-- 2-gram membership: exactly the length-2 contiguous substrings. -/
theorem mem_twoGrams_iff (t u : List Nat) :
    u ∈ twoGrams t ↔ u.length = 2 ∧ IsSubstr u t := by
  rw [twoGrams_eq]
  simp only [List.mem_map, List.mem_range]
  constructor
  · rintro ⟨i, hi, rfl⟩
    have hi' : i + 1 < t.length := by omega
    rw [substring_two t i hi']
    refine ⟨rfl, ?_⟩
    have hw := IsSubstr_window t i 2
    rwa [substring_two t i hi'] at hw
  · rintro ⟨hlen, hsub⟩
    obtain ⟨a, b, rfl⟩ : ∃ a b, u = [a, b] := by
      cases u with
      | nil => simp at hlen
      | cons a as =>
        cases as with
        | nil => simp at hlen
        | cons b bs =>
          cases bs with
          | nil => exact ⟨a, b, rfl⟩
          | cons e es => simp at hlen
    rw [pair_IsSubstr] at hsub
    obtain ⟨i, hi, ha, hb⟩ := hsub
    refine ⟨i, by omega, ?_⟩
    rw [substring_two t i hi, ha, hb]

/-- Distinct tokens yield distinct `tokenMap` predicates. -/
theorem tokenQueryOf_inj : Function.Injective tokenQueryOf := by
  intro t₁ t₂ h
  have hf := congrArg TokenQuery.field h
  simp only [tokenQueryOf] at hf
  exact List.append_cancel_left hf

end AirAdapter

namespace AirAdapter

/-- C7: `createTokenMapQueries("ab")` yields exactly the predicates for
tokens `a`, `b`, `ab`; and on every input surviving the emptiness check,
the emitted predicate list is duplicate-free, each predicate is the
`tokenMap.<token> == true` equality for a token that is a 1- or
2-character contiguous substring of the stripped input and contains no
surrogate code unit, and every such substring's predicate is emitted. -/
theorem C7_tokenMapQueries :
    createTokenMapQueries (strUnits "ab")
      = .ok [tokenQueryOf (strUnits "a"), tokenQueryOf (strUnits "b"),
             tokenQueryOf (strUnits "ab")] ∧
    ∀ s : List Nat, s.all jsWhitespace = false →
      ∃ qs, createTokenMapQueries s = .ok qs ∧ qs.Nodup ∧
        (∀ q ∈ qs, ∃ t, q = tokenQueryOf t ∧ (t.length = 1 ∨ t.length = 2) ∧
          IsSubstr t (stripUnits s) ∧ ∀ u ∈ t, isSurrogateUnit u = false) ∧
        (∀ t, (t.length = 1 ∨ t.length = 2) → IsSubstr t (stripUnits s) →
          tokenQueryOf t ∈ qs) := by
  constructor
  · decide
  · intro s hs
    refine ⟨(jsSetDedup (oneGrams (stripUnits s) ++ twoGrams (stripUnits s))).map
      tokenQueryOf, ?_, ?_, ?_, ?_⟩
    · unfold createTokenMapQueries
      rw [hs]
      rfl
    · exact List.Nodup.map tokenQueryOf_inj (nodup_jsSetDedupAux [] _)
    · intro q hq
      rw [List.mem_map] at hq
      obtain ⟨t, ht, rfl⟩ := hq
      have ht' : t ∈ oneGrams (stripUnits s) ++ twoGrams (stripUnits s) :=
        ((mem_jsSetDedupAux [] _ t).mp ht).1
      rw [List.mem_append] at ht'
      have hls : (t.length = 1 ∨ t.length = 2) ∧ IsSubstr t (stripUnits s) := by
        rcases ht' with h1 | h2
        · have h := (mem_oneGrams_iff _ _).mp h1
          exact ⟨Or.inl h.1, h.2⟩
        · have h := (mem_twoGrams_iff _ _).mp h2
          exact ⟨Or.inr h.1, h.2⟩
      refine ⟨t, rfl, hls.1, hls.2, ?_⟩
      intro u hu
      obtain ⟨l, r, hlr⟩ := hls.2
      have hus : u ∈ stripUnits s := by
        rw [hlr]
        simp [hu]
      unfold stripUnits at hus
      have hflt := (List.mem_filter.mp hus).2
      have hns : strippedUnit u = false := by simpa using hflt
      unfold strippedUnit at hns
      simp only [Bool.or_eq_false_iff] at hns
      exact hns.1.1.1.1.1
    · intro t hlen hsub
      rw [List.mem_map]
      refine ⟨t, ?_, rfl⟩
      apply (mem_jsSetDedupAux [] _ t).mpr
      refine ⟨?_, by simp⟩
      rw [List.mem_append]
      rcases hlen with h1 | h2
      · exact Or.inl ((mem_oneGrams_iff _ _).mpr ⟨h1, hsub⟩)
      · exact Or.inr ((mem_twoGrams_iff _ _).mpr ⟨h2, hsub⟩)

/-- Witness for C7: the second part applied to the concrete input
`"a🎉b"` (`[97, 0xD83C, 0xDF89, 98]`), whose emoji contributes no
token. -/
theorem C7_tokenMapQueries_witness :
    ∃ qs, createTokenMapQueries [97, 55356, 57225, 98] = .ok qs ∧ qs.Nodup ∧
      (∀ q ∈ qs, ∃ t, q = tokenQueryOf t ∧ (t.length = 1 ∨ t.length = 2) ∧
        IsSubstr t (stripUnits [97, 55356, 57225, 98]) ∧
        ∀ u ∈ t, isSurrogateUnit u = false) ∧
      (∀ t, (t.length = 1 ∨ t.length = 2) →
        IsSubstr t (stripUnits [97, 55356, 57225, 98]) →
        tokenQueryOf t ∈ qs) :=
  C7_tokenMapQueries.2 [97, 55356, 57225, 98] (by decide)

end AirAdapter
